import Mathlib

/-!
Verification of the poors-man-ratelimiter repository: a shallow embedding of
the test harnesses and mock backend under `src/`, together with models of the
gateway core reconstructed from the specification (the gateway implementation
itself is not part of this repository).  Definitions are translated from the
Python sources; definitions marked `Modelled from the spec:` embed the
gateway behavior that only the spec describes.
-/

/-! ## JSON values, as produced by Flask request.get_json -/

/-- JSON values as parsed by the mock backend (`request.get_json`).  Numbers
are modelled as integers (the harness only sends integral numbers). -/
inductive Json where
  | null : Json
  | bool : Bool → Json
  | num : Int → Json
  | str : String → Json
  | arr : List Json → Json
  | obj : List (String × Json) → Json

/-- Python truthiness of a parsed JSON value (`None`, `False`, `0`, `""`,
`[]`, `{}` are falsy): this decides what `data or {}` evaluates to. -/
def Json.truthy : Json → Bool
  | .null => false
  | .bool b => b
  | .num n => n != 0
  | .str s => s != ""
  | .arr l => !l.isEmpty
  | .obj l => !l.isEmpty

/-! ## The mock backend (src/test-server.py) -/

/-- A request to the echo endpoint of the mock backend.  `bodyJson` is the
result of `request.get_json(silent=True)`: `some j` when the body parsed as
JSON, `none` when the body is missing, malformed, or of the wrong content
type (with `silent=True` this never raises).  The four header fields carry
the header values when present.  The timestamp field of the response is
omitted (wall-clock time). -/
structure EchoRequest where
  method : String
  bodyJson : Option Json
  xFormToken : Option String
  xFormLoadTime : Option String
  xHoneypot : Option String
  xIdempotencyKey : Option String

structure EchoResponse where
  status : Nat
  message : String
  request_count : Nat
  method : String
  received_data : Json
  hdrFormToken : Option String
  hdrFormLoadTime : Option String
  hdrHoneypot : Option String
  hdrIdempotencyKey : Option String

/-- The `echo` handler of src/test-server.py: increments the process-wide
request counter, computes `data = request.get_json(silent=True) or {}` and
echoes method, data and the four tracked headers. -/
def echo (counter : Nat) (req : EchoRequest) : Nat × EchoResponse :=
  let counter := counter + 1
  let data : Json :=
    match req.bodyJson with
    | some j => if j.truthy then j else Json.obj []
    | none => Json.obj []
  (counter,
    { status := 200
      message := "Echo successful"
      request_count := counter
      method := req.method
      received_data := data
      hdrFormToken := req.xFormToken
      hdrFormLoadTime := req.xFormLoadTime
      hdrHoneypot := req.xHoneypot
      hdrIdempotencyKey := req.xIdempotencyKey })

structure HelloResponse where
  status : Nat
  message : String
  request_count : Nat
  method : String

/-- The `hello_world` handler of src/test-server.py. -/
def hello_world (counter : Nat) : Nat × HelloResponse :=
  let counter := counter + 1
  (counter,
    { status := 200, message := "Hello, World!", request_count := counter, method := "GET" })

structure StatusResponse where
  status : String
  total_requests : Nat

/-- The `status` handler of src/test-server.py: reads the counter without
modifying it. -/
def status (counter : Nat) : Nat × StatusResponse :=
  (counter, { status := "online", total_requests := counter })

structure HealthResponse where
  status : String

/-- The `health` handler of src/test-server.py. -/
def health (counter : Nat) : Nat × HealthResponse :=
  (counter, { status := "healthy" })

/-- One inbound request to the mock backend, dispatched to one of its four
handlers. -/
inductive ServerRequest where
  | helloReq : ServerRequest
  | echoReq : EchoRequest → ServerRequest
  | statusReq : ServerRequest
  | healthReq : ServerRequest

/-- Handling one request: the resulting value of `request_counter`. -/
def handle (counter : Nat) : ServerRequest → Nat
  | .helloReq => (hello_world counter).1
  | .echoReq r => (echo counter r).1
  | .statusReq => (status counter).1
  | .healthReq => (health counter).1

/-- The counter after serving a sequence of requests. -/
def runServer (counter : Nat) : List ServerRequest → Nat
  | [] => counter
  | q :: qs => runServer (handle counter q) qs

/-- Whether a request is served by `hello_world` or `echo` (the handlers
that touch the counter). -/
def countsRequest : ServerRequest → Bool
  | .helloReq => true
  | .echoReq _ => true
  | .statusReq => false
  | .healthReq => false

/-! ## Admin URL constants of the three test scripts -/

namespace TestGateway

/-- `ADMIN_BASE_URL` of src/test-gateway.py (default value of the
environment lookup). -/
def ADMIN_BASE_URL : String := "http://localhost:9090"

/-- `RULES_ADMIN_URL` of src/test-gateway.py. -/
def RULES_ADMIN_URL : String := ADMIN_BASE_URL ++ "/poormansRateLimit/api/admin/rules"

/-- The id-addressed rule URL built by src/test-gateway.py
(PUT/DELETE target). -/
def ruleUrl (id : String) : String := RULES_ADMIN_URL ++ "/" ++ id

/-- The queue-config PATCH URL built by src/test-gateway.py. -/
def queueUrl (id : String) : String := RULES_ADMIN_URL ++ "/" ++ id ++ "/queue"

end TestGateway

namespace TestJwt

/-- `ADMIN_API_URL` of src/test-jwt-rate-limit.py. -/
def ADMIN_API_URL : String := "http://localhost:9090/poormansRateLimit/api/admin/rules"

/-- The delete URL built by `cleanup_rules` in src/test-jwt-rate-limit.py. -/
def deleteUrl (id : String) : String := ADMIN_API_URL ++ "/" ++ id

end TestJwt

namespace TestBodyCT

/-- `BASE_URL` of src/test-body-content-types.py. -/
def BASE_URL : String := "http://localhost:8080"

/-- `API_URL` of src/test-body-content-types.py: note the missing
`/poormansRateLimit` segment. -/
def API_URL : String := BASE_URL ++ "/api/admin/rules"

/-- The delete URL built by the cleanup code of
src/test-body-content-types.py. -/
def deleteUrl (id : String) : String := API_URL ++ "/" ++ id

end TestBodyCT

/-- The path component of an `http://host[:port]/...` URL: drop the
`http://` scheme, then everything up to the first slash. -/
def urlPath (url : String) : List Char :=
  (url.toList.drop 7).dropWhile (fun c => c != '/')

/-- The admin rules path that the spec documents. -/
def adminRulesPath : List Char := "/poormansRateLimit/api/admin/rules".toList

/-! ## Association lists keyed by strings (shared state stores) -/

/-- Lookup by key in an association list. -/
def alookup {α : Type} : List (String × α) → String → Option α
  | [], _ => none
  | (k', v) :: r, k => if k' = k then some v else alookup r k

/-- Replace the first binding of a key, or append a fresh one. -/
def aset {α : Type} : List (String × α) → String → α → List (String × α)
  | [], k, v => [(k, v)]
  | (k', v') :: r, k, v => if k' = k then (k, v) :: r else (k', v') :: aset r k v

theorem alookup_aset_self {α : Type} (l : List (String × α)) (k : String) (v : α) :
    alookup (aset l k v) k = some v := by
  induction l with
  | nil => simp [aset, alookup]
  | cons h r ih =>
    obtain ⟨k', v'⟩ := h
    by_cases hk : k' = k
    · simp [aset, hk, alookup]
    · simp [aset, hk, alookup, ih]

theorem alookup_aset_ne {α : Type} (l : List (String × α)) (k k' : String) (v : α)
    (h : k ≠ k') : alookup (aset l k v) k' = alookup l k' := by
  induction l with
  | nil => simp [aset, alookup, h]
  | cons hd r ih =>
    obtain ⟨k₀, v₀⟩ := hd
    by_cases hk : k₀ = k
    · subst hk
      simp [aset, alookup, h]
    · simp [aset, hk, alookup, ih]

/-! ## Rate Limiter Core (modelled from the spec) -/

/-- Modelled from the spec: the rate-limit Rule record (§3 DATA MODEL) with
the fields that the rate-limiting claims exercise; the gateway that owns it
is not part of this repository. -/
structure Rule where
  pathPattern : String
  targetUri : String
  allowedRequests : Nat
  windowSeconds : Nat
  active : Bool
  priority : Int
  queueEnabled : Bool
  maxQueueSize : Nat
  delayPerRequestMs : Nat
  jwtEnabled : Bool
  jwtClaims : List String
  jwtClaimSeparator : String

/-- Modelled from the spec: a fixed-window counter for one (rule,
identifier) pair, holding the window-start timestamp (ms) and the count of
attempts in the current window (§3 Counter). -/
structure Counter where
  windowStartMs : Nat
  count : Nat

/-- Modelled from the spec: the rate limiter's per-rule mutable state —
counters keyed by identifier, plus the rule's queue occupancy (§4.3, §4.4;
queue capacity is per-rule). -/
structure LimiterState where
  counters : List (String × Counter)
  queueLen : Nat

/-- Modelled from the spec: the admission decision (§4.3); a queued request
carries its computed release delay in ms. -/
inductive Decision where
  | allow : Decision
  | queued : (delayMs : Nat) → Decision
  | reject : Decision

/-- HTTP status eventually observed by the caller for a decision: allowed
and queue-released requests return 200, rejections 429 (§4.3, §4.4). -/
def Decision.statusCode : Decision → Nat
  | .allow => 200
  | .queued _ => 200
  | .reject => 429

/-- Value of the `X-RateLimit-Queued` response header for a decision. -/
def Decision.queuedHeader : Decision → Bool
  | .queued _ => true
  | _ => false

/-- Added latency (ms) a decision imposes before the caller's response
completes: zero unless the request was queued. -/
def Decision.addedDelayMs : Decision → Nat
  | .queued d => d
  | _ => 0

/-- Modelled from the spec: the admission decision procedure (§4.3 fixed
window, §4.4 queue).  The counter for the identifier increments on each
attempt, starting a fresh window when none exists or `windowSeconds` have
elapsed since the window opened; a count within `allowedRequests` is
allowed; beyond it the request is queued while `queueEnabled` and the
rule's queue has spare capacity — with release delay
`delayPerRequestMs × positionInQueue` — and rejected otherwise. -/
def admitReq (r : Rule) (st : LimiterState) (ident : String) (nowMs : Nat) :
    Decision × LimiterState :=
  let c : Counter :=
    match alookup st.counters ident with
    | none => ⟨nowMs, 1⟩
    | some c₀ =>
      if c₀.windowStartMs + r.windowSeconds * 1000 ≤ nowMs then ⟨nowMs, 1⟩
      else ⟨c₀.windowStartMs, c₀.count + 1⟩
  let stC : LimiterState := { st with counters := aset st.counters ident c }
  if c.count ≤ r.allowedRequests then (.allow, stC)
  else if r.queueEnabled ∧ st.queueLen < r.maxQueueSize then
    (.queued (r.delayPerRequestMs * (st.queueLen + 1)), { stC with queueLen := st.queueLen + 1 })
  else (.reject, stC)

/-- Running a sequence of requests for one identifier at the given
timestamps, collecting the decisions. -/
def runRequests (r : Rule) (st : LimiterState) (ident : String) :
    List Nat → List Decision × LimiterState
  | [] => ([], st)
  | t :: ts =>
    let step := admitReq r st ident t
    let rest := runRequests r step.2 ident ts
    (step.1 :: rest.1, rest.2)

/-- The rule created by `create_jwt_rule` in src/test-jwt-rate-limit.py
(fields absent from the script's JSON payload default to zero / empty). -/
def jwtRule : Rule :=
  { pathPattern := "/get"
    targetUri := "http://httpbin:80/get"
    allowedRequests := 5
    windowSeconds := 60
    active := true
    priority := -1
    queueEnabled := false
    maxQueueSize := 0
    delayPerRequestMs := 0
    jwtEnabled := true
    jwtClaims := ["sub", "tenant_id"]
    jwtClaimSeparator := ":" }

/-- The `/test/**` rule as reconfigured by
`test_queueing_disabled_reverts_to_rejection` in src/test-gateway.py. -/
def disableQueueRule : Rule :=
  { pathPattern := "/test/**"
    targetUri := "http://test-server:9000"
    allowedRequests := 3
    windowSeconds := 10
    active := true
    priority := 0
    queueEnabled := false
    maxQueueSize := 0
    delayPerRequestMs := 0
    jwtEnabled := false
    jwtClaims := []
    jwtClaimSeparator := "" }

/-- The `/test/**` rule as reconfigured by `test_queueing_delay_timing`
in src/test-gateway.py. -/
def queueTimingRule : Rule :=
  { pathPattern := "/test/**"
    targetUri := "http://test-server:9000"
    allowedRequests := 1
    windowSeconds := 5
    active := true
    priority := 0
    queueEnabled := true
    maxQueueSize := 1
    delayPerRequestMs := 1000
    jwtEnabled := false
    jwtClaims := []
    jwtClaimSeparator := "" }

/-! ## Fixed-window status sequences -/

/-- Requests within an already-open window: with queueing disabled, the
remaining quota is served with 200 and everything beyond it with 429. -/
theorem runStatuses_inWindow (r : Rule) (hq : r.queueEnabled = false)
    (ident : String) (t0 : Nat) :
    ∀ (ts : List Nat) (st : LimiterState) (c : Nat),
      alookup st.counters ident = some ⟨t0, c⟩ →
      (∀ t ∈ ts, t < t0 + r.windowSeconds * 1000) →
      ((runRequests r st ident ts).1.map Decision.statusCode) =
        List.replicate (min ts.length (r.allowedRequests - c)) 200 ++
        List.replicate (ts.length - (r.allowedRequests - c)) 429 := by
  intro ts
  induction ts with
  | nil =>
    intro st c _ _
    simp [runRequests]
  | cons t ts ih =>
    intro st c hl ht
    have htw : t < t0 + r.windowSeconds * 1000 := ht t (List.mem_cons_self t ts)
    have hts : ∀ u ∈ ts, u < t0 + r.windowSeconds * 1000 :=
      fun u hu => ht u (List.mem_cons_of_mem _ hu)
    have hwin : ¬ (t0 + r.windowSeconds * 1000 ≤ t) := by omega
    by_cases hc : c + 1 ≤ r.allowedRequests
    · have hadm : admitReq r st ident t =
          (Decision.allow, { st with counters := aset st.counters ident ⟨t0, c + 1⟩ }) := by
        simp [admitReq, hl, hwin, hc]
      have hrec := ih { st with counters := aset st.counters ident ⟨t0, c + 1⟩ } (c + 1)
        (alookup_aset_self _ _ _) hts
      have h1 : min (ts.length + 1) (r.allowedRequests - c) =
          min ts.length (r.allowedRequests - (c + 1)) + 1 := by omega
      have h2 : ts.length + 1 - (r.allowedRequests - c) =
          ts.length - (r.allowedRequests - (c + 1)) := by omega
      simp only [runRequests, hadm, List.map_cons, hrec, List.length_cons, h1, h2,
        Decision.statusCode, List.replicate_succ, List.cons_append]
    · have hadm : admitReq r st ident t =
          (Decision.reject, { st with counters := aset st.counters ident ⟨t0, c + 1⟩ }) := by
        simp [admitReq, hl, hwin, hc, hq]
      have hrec := ih { st with counters := aset st.counters ident ⟨t0, c + 1⟩ } (c + 1)
        (alookup_aset_self _ _ _) hts
      have h0 : r.allowedRequests - c = 0 := by omega
      have h0' : r.allowedRequests - (c + 1) = 0 := by omega
      simp only [runRequests, hadm, List.map_cons, hrec, List.length_cons, h0, h0',
        Decision.statusCode]
      simp [List.replicate_succ]

/-- From a fresh state, a burst inside one window is served as
`min (length) allowedRequests` copies of 200 followed by 429s, when
queueing is disabled. -/
theorem runStatuses_from_start (r : Rule) (hq : r.queueEnabled = false)
    (hN : 1 ≤ r.allowedRequests) (ident : String) (t0 : Nat) (ts : List Nat)
    (ht : ∀ t ∈ ts, t < t0 + r.windowSeconds * 1000) :
    ((runRequests r ⟨[], 0⟩ ident (t0 :: ts)).1.map Decision.statusCode) =
      List.replicate (min (ts.length + 1) r.allowedRequests) 200 ++
      List.replicate (ts.length + 1 - r.allowedRequests) 429 := by
  have hadm : admitReq r ⟨[], 0⟩ ident t0 = (Decision.allow, ⟨[(ident, ⟨t0, 1⟩)], 0⟩) := by
    simp [admitReq, alookup, aset, hN]
  have hrec := runStatuses_inWindow r hq ident t0 ts ⟨[(ident, ⟨t0, 1⟩)], 0⟩ 1
    (by simp [alookup]) ht
  have h1 : min (ts.length + 1) r.allowedRequests =
      min ts.length (r.allowedRequests - 1) + 1 := by omega
  have h2 : ts.length + 1 - r.allowedRequests =
      ts.length - (r.allowedRequests - 1) := by omega
  simp only [runRequests, hadm, List.map_cons, hrec, Decision.statusCode, h1, h2,
    List.replicate_succ, List.cons_append]

/-- C1: for every rule with `allowedRequests = N`, `windowSeconds = W` and
queueing disabled, and every fixed identifier, a burst starting a window is
answered with 200 for the first `N` requests and 429 for every further
request made within `W` seconds of the first — so the (N+1)-th in-window
request is rejected.  The harness instance (`jwtRule`: N = 5, W = 60, one
JWT identifier, 7 requests) is the witness. -/
theorem C1_fixed_window_rejection (r : Rule) (ident : String) (t0 : Nat) (ts : List Nat)
    (hq : r.queueEnabled = false) (hN : 1 ≤ r.allowedRequests)
    (ht : ∀ t ∈ ts, t < t0 + r.windowSeconds * 1000) :
    ((runRequests r ⟨[], 0⟩ ident (t0 :: ts)).1.map Decision.statusCode) =
      List.replicate (min (ts.length + 1) r.allowedRequests) 200 ++
      List.replicate (ts.length + 1 - r.allowedRequests) 429 :=
  runStatuses_from_start r hq hN ident t0 ts ht

/-- Witness for C1: the harness's concrete instance — the JWT rule of
src/test-jwt-rate-limit.py (5 requests per 60 s, no queueing) under the
identifier `user-a:tenant-x`, seven requests 100 ms apart: five 200s then
two 429s. -/
theorem C1_witness :
    jwtRule.queueEnabled = false ∧ 1 ≤ jwtRule.allowedRequests ∧
    (∀ t ∈ [100, 200, 300, 400, 500, 600], t < 0 + jwtRule.windowSeconds * 1000) ∧
    ((runRequests jwtRule ⟨[], 0⟩ "user-a:tenant-x"
        (0 :: [100, 200, 300, 400, 500, 600])).1.map Decision.statusCode) =
      [200, 200, 200, 200, 200, 429, 429] := by
  refine ⟨rfl, by decide, by decide, ?_⟩
  have h := C1_fixed_window_rejection jwtRule "user-a:tenant-x" 0
    [100, 200, 300, 400, 500, 600] rfl (by decide) (by decide)
  rw [h]
  decide

/-- C4: with the rule reconfigured to `allowedRequests = 3`,
`windowSeconds = 10`, `queueEnabled = false` by the disable-queueing test,
a burst of six requests inside one window yields exactly three 200s
followed by three 429s. -/
theorem C4_disable_queueing (ident : String) (t0 : Nat) (ts : List Nat)
    (hlen : ts.length = 5)
    (ht : ∀ t ∈ ts, t < t0 + disableQueueRule.windowSeconds * 1000) :
    ((runRequests disableQueueRule ⟨[], 0⟩ ident (t0 :: ts)).1.map Decision.statusCode) =
      [200, 200, 200, 429, 429, 429] := by
  have h := runStatuses_from_start disableQueueRule rfl (by decide) ident t0 ts ht
  rw [h, hlen]
  decide

/-- Witness for C4: six rapid requests 100 ms apart from one client. -/
theorem C4_witness :
    ([100, 200, 300, 400, 500] : List Nat).length = 5 ∧
    (∀ t ∈ [100, 200, 300, 400, 500], t < 0 + disableQueueRule.windowSeconds * 1000) ∧
    ((runRequests disableQueueRule ⟨[], 0⟩ "client-ip"
        (0 :: [100, 200, 300, 400, 500])).1.map Decision.statusCode) =
      [200, 200, 200, 429, 429, 429] :=
  ⟨by decide, by decide,
    C4_disable_queueing "client-ip" 0 [100, 200, 300, 400, 500] (by decide) (by decide)⟩

/-- C5: with `allowedRequests = 1, windowSeconds = 5, queueEnabled = true,
maxQueueSize = 1, delayPerRequestMs = 1000`, two back-to-back requests both
return 200; the first is admitted immediately (not queued, 0 ms added
latency) and the second is queued with `X-RateLimit-Queued: true` and a
computed release delay of 1000 ms, inside the ±500 ms tolerance.  Timing is
modelled by the queue's computed release delay (§4.4: added latency of a
queued request equals `delayPerRequestMs × positionInQueue`). -/
theorem C5_queue_timing (ident : String) (t0 t1 : Nat)
    (h01 : t1 < t0 + queueTimingRule.windowSeconds * 1000) :
    (runRequests queueTimingRule ⟨[], 0⟩ ident [t0, t1]).1 =
      [Decision.allow, Decision.queued 1000] ∧
    ((runRequests queueTimingRule ⟨[], 0⟩ ident [t0, t1]).1.map Decision.statusCode) =
      [200, 200] ∧
    ((runRequests queueTimingRule ⟨[], 0⟩ ident [t0, t1]).1.map Decision.queuedHeader) =
      [false, true] ∧
    ((runRequests queueTimingRule ⟨[], 0⟩ ident [t0, t1]).1.map Decision.addedDelayMs) =
      [0, 1000] ∧
    1000 - 500 ≤ (Decision.queued 1000).addedDelayMs ∧
    (Decision.queued 1000).addedDelayMs ≤ 1000 + 500 := by
  have hw : queueTimingRule.windowSeconds * 1000 = 5000 := rfl
  rw [hw] at h01
  have hwin : ¬ (t0 + 5000 ≤ t1) := by omega
  have s1 : admitReq queueTimingRule ⟨[], 0⟩ ident t0 =
      (Decision.allow, ⟨[(ident, ⟨t0, 1⟩)], 0⟩) := by
    simp [admitReq, alookup, aset, queueTimingRule]
  have s2 : admitReq queueTimingRule ⟨[(ident, ⟨t0, 1⟩)], 0⟩ ident t1 =
      (Decision.queued 1000, ⟨[(ident, ⟨t0, 2⟩)], 1⟩) := by
    simp [admitReq, alookup, aset, queueTimingRule, hwin]
  have key : (runRequests queueTimingRule ⟨[], 0⟩ ident [t0, t1]).1 =
      [Decision.allow, Decision.queued 1000] := by
    simp [runRequests, s1, s2]
  refine ⟨key, ?_, ?_, ?_, by decide, by decide⟩ <;> rw [key] <;> decide

/-- Witness for C5: two requests 10 ms apart. -/
theorem C5_witness :
    (10 < 0 + queueTimingRule.windowSeconds * 1000) ∧
    ((runRequests queueTimingRule ⟨[], 0⟩ "client-ip" [0, 10]).1 =
      [Decision.allow, Decision.queued 1000] ∧
    ((runRequests queueTimingRule ⟨[], 0⟩ "client-ip" [0, 10]).1.map Decision.statusCode) =
      [200, 200] ∧
    ((runRequests queueTimingRule ⟨[], 0⟩ "client-ip" [0, 10]).1.map Decision.queuedHeader) =
      [false, true] ∧
    ((runRequests queueTimingRule ⟨[], 0⟩ "client-ip" [0, 10]).1.map Decision.addedDelayMs) =
      [0, 1000] ∧
    1000 - 500 ≤ (Decision.queued 1000).addedDelayMs ∧
    (Decision.queued 1000).addedDelayMs ≤ 1000 + 500) :=
  ⟨by decide, C5_queue_timing "client-ip" 0 10 (by decide)⟩

/-! ## Anti-Bot Engine (modelled from the spec) -/

/-- Modelled from the spec: a stored FormToken — issuance time (`loadTime`,
ms epoch) and whether it has been consumed (§3 FormToken). -/
structure TokenRec where
  issuedAtMs : Nat
  used : Bool
deriving DecidableEq

/-- Modelled from the spec: the Anti-Bot Engine's state — issued tokens and
already-seen idempotency keys (§3, §4.5). -/
structure BotState where
  tokens : List (String × TokenRec)
  seenKeys : List String

/-- A mutating (POST/PUT/PATCH) submission as the Anti-Bot Engine sees it:
the `X-Form-Token`, `X-Honeypot` and optional `X-Idempotency-Key` header
values, and the arrival time. -/
structure Submission where
  token : String
  honeypot : String
  idemKey : Option String
  nowMs : Nat

/-- Modelled from the spec: the terminal states of the validation state
machine (§4.5). -/
inductive BotOutcome where
  | accepted : BotOutcome
  | rejectedInvalidToken : BotOutcome
  | rejectedReusedToken : BotOutcome
  | rejectedHoneypot : BotOutcome
  | rejectedTooFast : BotOutcome
  | rejectedDuplicate : BotOutcome
deriving DecidableEq

/-- HTTP status of an outcome: 200 accepted, 409 duplicate, 403 for every
anti-bot rejection (§4.5, §6). -/
def BotOutcome.statusCode : BotOutcome → Nat
  | .accepted => 200
  | .rejectedDuplicate => 409
  | _ => 403

/-- Mark a token consumed (the atomic mark-used of §4.5 step 2). -/
def markUsed : List (String × TokenRec) → String → List (String × TokenRec)
  | [], _ => []
  | (k', tr) :: r, k =>
    if k' = k then (k', { tr with used := true }) :: r else (k', tr) :: markUsed r k

/-- Modelled from the spec: validation of one mutating submission, checks in
the documented order — token lookup, reuse, expiry (600 s), honeypot,
minimum time to submit (2000 ms), idempotency key — consuming the token and
recording the key exactly when the submission is accepted (§4.5). -/
def validate (st : BotState) (s : Submission) : BotOutcome × BotState :=
  match alookup st.tokens s.token with
  | none => (.rejectedInvalidToken, st)
  | some tr =>
    if tr.used then (.rejectedReusedToken, st)
    else if 600000 < s.nowMs - tr.issuedAtMs then (.rejectedInvalidToken, st)
    else if s.honeypot ≠ "" then (.rejectedHoneypot, st)
    else if s.nowMs - tr.issuedAtMs < 2000 then (.rejectedTooFast, st)
    else
      match s.idemKey with
      | some k =>
        if k ∈ st.seenKeys then (.rejectedDuplicate, st)
        else (.accepted, ⟨markUsed st.tokens s.token, k :: st.seenKeys⟩)
      | none => (.accepted, { st with tokens := markUsed st.tokens s.token })

/-- Validating a sequence of submissions, pairing each with its outcome. -/
def runBot (st : BotState) : List Submission → List (Submission × BotOutcome) × BotState
  | [] => ([], st)
  | s :: ss =>
    let r := validate st s
    let rest := runBot r.2 ss
    ((s, r.1) :: rest.1, rest.2)

/-- Number of accepted submissions presenting a given token. -/
def successesFor (t : String) (l : List (Submission × BotOutcome)) : Nat :=
  l.countP (fun p => p.1.token == t && p.2 == BotOutcome.accepted)

theorem alookup_markUsed_self (l : List (String × TokenRec)) (k : String) :
    alookup (markUsed l k) k = (alookup l k).map (fun tr => { tr with used := true }) := by
  induction l with
  | nil => simp [markUsed, alookup]
  | cons hd r ih =>
    obtain ⟨k₀, tr₀⟩ := hd
    by_cases hk : k₀ = k
    · simp [markUsed, hk, alookup]
    · simp [markUsed, hk, alookup, ih]

theorem alookup_markUsed_ne (l : List (String × TokenRec)) (k k' : String) (h : k ≠ k') :
    alookup (markUsed l k) k' = alookup l k' := by
  induction l with
  | nil => simp [markUsed, alookup]
  | cons hd r ih =>
    obtain ⟨k₀, tr₀⟩ := hd
    by_cases hk : k₀ = k
    · subst hk
      simp [markUsed, alookup, h, ih]
    · simp [markUsed, hk, alookup, ih]

/-- Validation never revives a used token: a binding whose token is marked
used survives any submission unchanged. -/
theorem validate_preserves_used (st : BotState) (s : Submission) (t : String)
    (tr : TokenRec) (hl : alookup st.tokens t = some tr) (hu : tr.used = true) :
    alookup (validate st s).2.tokens t = some tr := by
  by_cases hst : s.token = t
  · subst hst
    simp [validate, hl, hu]
  · cases hc : alookup st.tokens s.token with
    | none => simpa [validate, hc] using hl
    | some tr' =>
      cases hk : s.idemKey with
      | none =>
        simp only [validate, hc, hk]
        split_ifs <;> simp_all [alookup_markUsed_ne _ _ _ hst]
      | some key =>
        simp only [validate, hc, hk]
        split_ifs <;> simp_all [alookup_markUsed_ne _ _ _ hst]

/-- A submission whose token is marked used is rejected as a reuse. -/
theorem validate_used_rejects (st : BotState) (s : Submission) (tr : TokenRec)
    (hl : alookup st.tokens s.token = some tr) (hu : tr.used = true) :
    (validate st s).1 = BotOutcome.rejectedReusedToken := by
  simp [validate, hl, hu]

/-- Once a token is marked used, every later submission presenting it is
rejected as a reuse, and the binding survives the whole run. -/
theorem runBot_used_all_reject (t : String) (tr : TokenRec) (hu : tr.used = true) :
    ∀ (ss : List Submission) (st : BotState), alookup st.tokens t = some tr →
      (∀ p ∈ (runBot st ss).1, p.1.token = t → p.2 = BotOutcome.rejectedReusedToken) ∧
      alookup (runBot st ss).2.tokens t = some tr := by
  intro ss
  induction ss with
  | nil =>
    intro st hl
    exact ⟨by simp [runBot], by simpa [runBot] using hl⟩
  | cons s ss ih =>
    intro st hl
    have hpres := validate_preserves_used st s t tr hl hu
    have hrec := ih (validate st s).2 hpres
    constructor
    · intro p hp hpt
      simp only [runBot, List.mem_cons] at hp
      rcases hp with hp | hp
      · subst hp
        have hl' : alookup st.tokens s.token = some tr := by rw [hpt]; exact hl
        exact validate_used_rejects st s tr hl' hu
      · exact hrec.1 p hp hpt
    · simpa [runBot] using hrec.2

/-- An accepted submission leaves its token marked used. -/
theorem accepted_marks_used (st : BotState) (s : Submission)
    (h : (validate st s).1 = BotOutcome.accepted) :
    ∃ tr : TokenRec, alookup (validate st s).2.tokens s.token = some tr ∧ tr.used = true := by
  cases hc : alookup st.tokens s.token with
  | none => simp [validate, hc] at h
  | some tr =>
    cases hk : s.idemKey with
    | none =>
      simp only [validate, hc, hk] at h ⊢
      split_ifs at h ⊢ with h1 h2 h3 h4
      all_goals try simp_all
      refine ⟨{ tr with used := true }, ?_, rfl⟩
      rw [alookup_markUsed_self, hc]
      rfl
    | some key =>
      simp only [validate, hc, hk] at h ⊢
      split_ifs at h ⊢ with h1 h2 h3 h4 h5
      all_goals try simp_all
      refine ⟨{ tr with used := true }, ?_, rfl⟩
      rw [alookup_markUsed_self, hc]
      rfl

/-- From a state where a token is already used, no later submission of that
token succeeds. -/
theorem successesFor_zero_of_used (t : String) (tr : TokenRec) (hu : tr.used = true)
    (ss : List Submission) (st : BotState) (hl : alookup st.tokens t = some tr) :
    successesFor t (runBot st ss).1 = 0 := by
  rw [successesFor, List.countP_eq_zero]
  intro p hp
  by_cases hpt : p.1.token = t
  · have := (runBot_used_all_reject t tr hu ss st hl).1 p hp hpt
    simp [this, hpt]
  · simp [hpt]

/-- At most one submission ever succeeds for a fixed token, from any state. -/
theorem successesFor_le_one (t : String) :
    ∀ (ss : List Submission) (st : BotState), successesFor t (runBot st ss).1 ≤ 1 := by
  intro ss
  induction ss with
  | nil => intro st; simp [runBot, successesFor]
  | cons s ss ih =>
    intro st
    simp only [runBot, successesFor, List.countP_cons]
    by_cases hacc : s.token = t ∧ (validate st s).1 = BotOutcome.accepted
    · obtain ⟨hst, hv⟩ := hacc
      obtain ⟨tr, htr, hu⟩ := accepted_marks_used st s hv
      have hz : successesFor t (runBot (validate st s).2 ss).1 = 0 :=
        successesFor_zero_of_used t tr hu ss (validate st s).2 (by rw [← hst]; exact htr)
      rw [successesFor] at hz
      rw [hz]
      split <;> simp
    · have hfalse : (s.token == t && (validate st s).1 == BotOutcome.accepted) = false := by
        simp only [Bool.and_eq_false_iff, beq_eq_false_iff_ne]
        by_cases h1 : s.token = t
        · exact Or.inr (fun h2 => hacc ⟨h1, h2⟩)
        · exact Or.inl h1
      rw [hfalse]
      simpa [successesFor] using ih (validate st s).2

/-- A fresh, unexpired token presented with an empty honeypot after the
minimum submit delay and with an unseen (or absent) idempotency key is
accepted, consuming the token and recording the key. -/
theorem validate_fresh_accepts (st : BotState) (s : Submission) (iss : Nat)
    (hl : alookup st.tokens s.token = some ⟨iss, false⟩)
    (hhp : s.honeypot = "")
    (hfast : 2000 ≤ s.nowMs - iss)
    (hexp : s.nowMs - iss ≤ 600000)
    (hkey : ∀ k, s.idemKey = some k → k ∉ st.seenKeys) :
    (validate st s).1 = BotOutcome.accepted ∧
    (validate st s).2.tokens = markUsed st.tokens s.token ∧
    (validate st s).2.seenKeys =
      (match s.idemKey with | some k => k :: st.seenKeys | none => st.seenKeys) := by
  have h1 : ¬ (600000 < s.nowMs - iss) := by omega
  have h2 : ¬ (s.nowMs - iss < 2000) := by omega
  cases hk : s.idemKey with
  | none => simp [validate, hl, h1, h2, hhp, hk]
  | some k =>
    have hks : k ∉ st.seenKeys := hkey k hk
    simp [validate, hl, h1, h2, hhp, hk, hks]

/-- C2: a valid first submission of an issued form token (empty honeypot,
after the 2000 ms minimum delay, within the 600 s validity window, no
duplicate idempotency key) is accepted with status 200; every subsequent
submission presenting that token is answered 403; and — from any state and
over any submission sequence — at most one submission per token ever
succeeds. -/
theorem C2_token_single_use (st : BotState) (s : Submission) (iss : Nat)
    (hl : alookup st.tokens s.token = some ⟨iss, false⟩)
    (hhp : s.honeypot = "")
    (hfast : 2000 ≤ s.nowMs - iss)
    (hexp : s.nowMs - iss ≤ 600000)
    (hkey : ∀ k, s.idemKey = some k → k ∉ st.seenKeys) :
    (validate st s).1 = BotOutcome.accepted ∧
    (validate st s).1.statusCode = 200 ∧
    (∀ (ss : List Submission) (p : Submission × BotOutcome),
        p ∈ (runBot (validate st s).2 ss).1 → p.1.token = s.token →
        p.2.statusCode = 403) ∧
    (∀ (st₀ : BotState) (ss : List Submission),
        successesFor s.token (runBot st₀ ss).1 ≤ 1) := by
  obtain ⟨hacc, htok, -⟩ := validate_fresh_accepts st s iss hl hhp hfast hexp hkey
  have hused : alookup (validate st s).2.tokens s.token = some ⟨iss, true⟩ := by
    rw [htok, alookup_markUsed_self, hl]
    rfl
  refine ⟨hacc, by rw [hacc]; rfl, ?_, fun st₀ ss => successesFor_le_one s.token ss st₀⟩
  intro ss p hp hpt
  have hrej := (runBot_used_all_reject s.token ⟨iss, true⟩ rfl ss (validate st s).2 hused).1
    p hp hpt
  rw [hrej]
  rfl

/-- Initial anti-bot state of the C2 witness scenario: one freshly issued
token. -/
def c2St : BotState := ⟨[("tok-1", ⟨0, false⟩)], []⟩

/-- The C2 witness submission: the issued token, empty honeypot, 2500 ms
after issuance. -/
def c2Sub : Submission := ⟨"tok-1", "", none, 2500⟩

/-- Witness for C2: a concrete token used twice — first submission
accepted with 200, the reuse answered 403, and three tries yield at most
one success. -/
theorem C2_witness :
    alookup c2St.tokens c2Sub.token = some ⟨0, false⟩ ∧
    c2Sub.honeypot = "" ∧
    2000 ≤ c2Sub.nowMs - 0 ∧ c2Sub.nowMs - 0 ≤ 600000 ∧
    (validate c2St c2Sub).1 = BotOutcome.accepted ∧
    (validate c2St c2Sub).1.statusCode = 200 ∧
    ((runBot (validate c2St c2Sub).2 [c2Sub]).1.map (fun p => p.2.statusCode)) = [403] ∧
    successesFor c2Sub.token (runBot c2St [c2Sub, c2Sub, c2Sub]).1 ≤ 1 := by
  have h := C2_token_single_use c2St c2Sub 0 (by decide) rfl (by decide) (by decide)
    (by intro k hk; simp [c2Sub] at hk)
  refine ⟨by decide, rfl, by decide, by decide, h.1, h.2.1, ?_,
    h.2.2.2 c2St [c2Sub, c2Sub, c2Sub]⟩
  have h403 := h.2.2.1 [c2Sub] (c2Sub, (validate (validate c2St c2Sub).2 c2Sub).1)
    (by simp [runBot]) rfl
  simp [runBot, h403]

/-- C3: two valid submissions with distinct fresh tokens but the same
unseen idempotency key — the first is accepted with 200, the second is
rejected as a duplicate with 409; the rejection depends only on the key
having been seen, since the second token is quantified over all valid
unused tokens. -/
theorem C3_idempotency_conflict (st : BotState) (s1 s2 : Submission)
    (iss1 iss2 : Nat) (k : String)
    (hne : s1.token ≠ s2.token)
    (hl1 : alookup st.tokens s1.token = some ⟨iss1, false⟩)
    (hl2 : alookup st.tokens s2.token = some ⟨iss2, false⟩)
    (hhp1 : s1.honeypot = "") (hhp2 : s2.honeypot = "")
    (hf1 : 2000 ≤ s1.nowMs - iss1) (he1 : s1.nowMs - iss1 ≤ 600000)
    (hf2 : 2000 ≤ s2.nowMs - iss2) (he2 : s2.nowMs - iss2 ≤ 600000)
    (hk1 : s1.idemKey = some k) (hk2 : s2.idemKey = some k)
    (hseen : k ∉ st.seenKeys) :
    (validate st s1).1 = BotOutcome.accepted ∧
    (validate st s1).1.statusCode = 200 ∧
    (validate (validate st s1).2 s2).1 = BotOutcome.rejectedDuplicate ∧
    (validate (validate st s1).2 s2).1.statusCode = 409 := by
  obtain ⟨hacc, htok, hkeys⟩ := validate_fresh_accepts st s1 iss1 hl1 hhp1 hf1 he1
    (by intro k' hk'; rw [hk1] at hk'; injection hk' with h; rw [← h]; exact hseen)
  rw [hk1] at hkeys
  have hl2' : alookup (validate st s1).2.tokens s2.token = some ⟨iss2, false⟩ := by
    rw [htok, alookup_markUsed_ne _ _ _ hne]
    exact hl2
  have hmem : k ∈ (validate st s1).2.seenKeys := by
    rw [hkeys]
    exact List.mem_cons_self _ _
  have hdup : (validate (validate st s1).2 s2).1 = BotOutcome.rejectedDuplicate := by
    have h1 : ¬ (600000 < s2.nowMs - iss2) := by omega
    have h2 : ¬ (s2.nowMs - iss2 < 2000) := by omega
    generalize hG : (validate st s1).2 = st1 at hl2' hmem ⊢
    simp [validate, hl2', h1, h2, hhp2, hk2, hmem]
  exact ⟨hacc, by rw [hacc]; rfl, hdup, by rw [hdup]; rfl⟩

/-- Initial anti-bot state of the C3 witness scenario: two freshly issued
tokens. -/
def c3St : BotState := ⟨[("tok-1", ⟨0, false⟩), ("tok-2", ⟨0, false⟩)], []⟩

/-- First C3 witness submission: first token, idempotency key `key-1`. -/
def c3Sub1 : Submission := ⟨"tok-1", "", some "key-1", 2500⟩

/-- Second C3 witness submission: a different valid unused token, same
idempotency key. -/
def c3Sub2 : Submission := ⟨"tok-2", "", some "key-1", 5200⟩

/-- Witness for C3: the concrete duplicate-key scenario — first 200, then
409. -/
theorem C3_witness :
    c3Sub1.token ≠ c3Sub2.token ∧
    alookup c3St.tokens c3Sub1.token = some ⟨0, false⟩ ∧
    alookup c3St.tokens c3Sub2.token = some ⟨0, false⟩ ∧
    ("key-1" ∉ c3St.seenKeys) ∧
    (validate c3St c3Sub1).1.statusCode = 200 ∧
    (validate (validate c3St c3Sub1).2 c3Sub2).1 = BotOutcome.rejectedDuplicate ∧
    (validate (validate c3St c3Sub1).2 c3Sub2).1.statusCode = 409 := by
  have h := C3_idempotency_conflict c3St c3Sub1 c3Sub2 0 0 "key-1" (by decide) (by decide)
    (by decide) rfl rfl (by decide) (by decide) (by decide) (by decide) rfl rfl (by decide)
  exact ⟨by decide, by decide, by decide, by decide, h.2.1, h.2.2.1, h.2.2.2⟩

/-! ## Claims about the mock backend -/

/-- The echo request whose body is the valid JSON document `0`, which is
falsy in Python. -/
def c9FalsyReq : EchoRequest :=
  { method := "POST", bodyJson := some (Json.num 0),
    xFormToken := none, xFormLoadTime := none, xHoneypot := none, xIdempotencyKey := none }

/-- Counterexample to C9: a body that is valid JSON (`0`) is echoed as the
empty object, not as the parsed value, because `get_json(...) or {}`
replaces every falsy parse result. -/
theorem C9_counterexample :
    c9FalsyReq.bodyJson = some (Json.num 0) ∧
    (echo 0 c9FalsyReq).2.received_data = Json.obj [] ∧
    Json.obj [] ≠ Json.num 0 :=
  ⟨rfl, rfl, fun h => Json.noConfusion h⟩

/-- C9 (amended): the echo handler always answers 200 (even for a missing
or malformed body), echoes the request method and the four tracked headers
verbatim, returns the parsed JSON body when it parses to a truthy value,
and returns the empty object when the body is missing, malformed, or
parses to a falsy value (`null`, `false`, `0`, `""`, `[]`, `{}`). -/
theorem C9_echo_behavior (c : Nat) (r : EchoRequest) :
    (echo c r).2.status = 200 ∧
    (echo c r).2.method = r.method ∧
    (∀ j, r.bodyJson = some j → j.truthy = true → (echo c r).2.received_data = j) ∧
    (∀ j, r.bodyJson = some j → j.truthy = false → (echo c r).2.received_data = Json.obj []) ∧
    (r.bodyJson = none → (echo c r).2.received_data = Json.obj []) ∧
    (echo c r).2.hdrFormToken = r.xFormToken ∧
    (echo c r).2.hdrFormLoadTime = r.xFormLoadTime ∧
    (echo c r).2.hdrHoneypot = r.xHoneypot ∧
    (echo c r).2.hdrIdempotencyKey = r.xIdempotencyKey := by
  refine ⟨rfl, rfl, ?_, ?_, ?_, rfl, rfl, rfl, rfl⟩
  · intro j hj ht
    simp [echo, hj, ht]
  · intro j hj ht
    simp [echo, hj, ht]
  · intro h
    simp [echo, h]

/-- The echo request of the C9 witness: a truthy JSON body and a form-token
header. -/
def c9TruthyReq : EchoRequest :=
  { method := "PUT", bodyJson := some (Json.str "hi"),
    xFormToken := some "t", xFormLoadTime := none, xHoneypot := some "",
    xIdempotencyKey := none }

/-- Witness for C9: a PUT with the truthy body `"hi"` is answered 200 with
the body and headers echoed. -/
theorem C9_witness :
    c9TruthyReq.bodyJson = some (Json.str "hi") ∧
    (Json.str "hi").truthy = true ∧
    (echo 0 c9TruthyReq).2.status = 200 ∧
    (echo 0 c9TruthyReq).2.method = "PUT" ∧
    (echo 0 c9TruthyReq).2.received_data = Json.str "hi" ∧
    (echo 0 c9TruthyReq).2.hdrFormToken = some "t" :=
  ⟨rfl, rfl, (C9_echo_behavior 0 c9TruthyReq).1,
    (C9_echo_behavior 0 c9TruthyReq).2.1,
    (C9_echo_behavior 0 c9TruthyReq).2.2.1 (Json.str "hi") rfl rfl,
    (C9_echo_behavior 0 c9TruthyReq).2.2.2.2.2.1⟩

/-- Serving requests adds exactly the number of hello/echo requests to the
counter. -/
theorem runServer_eq_add_countP :
    ∀ (qs : List ServerRequest) (c : Nat),
      runServer c qs = c + qs.countP countsRequest := by
  intro qs
  induction qs with
  | nil => intro c; simp [runServer]
  | cons q qs ih =>
    intro c
    cases q <;>
      simp [runServer, handle, countsRequest, hello_world, echo, status, health, ih,
        List.countP_cons] <;>
      omega

/-- C10: `hello_world` and `echo` each increment the process-wide counter
by exactly one and report its post-increment value (`request_count`); the
`status` and `health` handlers never modify it and `status` reports its
current value (`total_requests`); hence after any request sequence the
counter equals the number of hello/echo requests served, and it is
monotonically non-decreasing. -/
theorem C10_request_counter :
    (∀ c, (hello_world c).1 = c + 1 ∧ (hello_world c).2.request_count = (hello_world c).1) ∧
    (∀ c r, (echo c r).1 = c + 1 ∧ (echo c r).2.request_count = (echo c r).1) ∧
    (∀ c, (status c).1 = c ∧ (status c).2.total_requests = c) ∧
    (∀ c, (health c).1 = c) ∧
    (∀ qs, runServer 0 qs = qs.countP countsRequest) ∧
    (∀ c qs, c ≤ runServer c qs) := by
  refine ⟨fun c => ⟨rfl, rfl⟩, fun c r => ⟨rfl, rfl⟩, fun c => ⟨rfl, rfl⟩, fun c => rfl,
    fun qs => by simpa using runServer_eq_add_countP qs 0, fun c qs => ?_⟩
  rw [runServer_eq_add_countP qs c]
  exact Nat.le_add_right _ _

/-! ## Claims about the admin URLs (C6) -/

theorem strToList_append (s t : String) : (s ++ t).toList = s.toList ++ t.toList := by
  cases s
  cases t
  rfl

theorem strAppend_assoc (a b c : String) : a ++ b ++ c = a ++ (b ++ c) := by
  cases a with | mk x => ?_
  cases b with | mk y => ?_
  cases c with | mk z => ?_
  show String.mk (x ++ y ++ z) = String.mk (x ++ (y ++ z))
  rw [List.append_assoc]

theorem dropWhile_append_ne_nil {α : Type} {p : α → Bool} (a b : List α)
    (h : a.dropWhile p ≠ []) : (a ++ b).dropWhile p = a.dropWhile p ++ b := by
  induction a with
  | nil => simp [List.dropWhile] at h
  | cons x a ih =>
    by_cases hx : p x
    · simp only [List.dropWhile, hx, List.cons_append] at h ⊢
      exact ih h
    · simp [List.dropWhile, hx]

/-- Appending a suffix to a URL that already has a non-empty path appends
it to the path. -/
theorem urlPath_append (s t : String) (h7 : 7 ≤ s.toList.length)
    (h : (s.toList.drop 7).dropWhile (fun c => c != '/') ≠ []) :
    urlPath (s ++ t) = urlPath s ++ t.toList := by
  unfold urlPath
  rw [strToList_append, List.drop_append_eq_append_drop]
  have h0 : 7 - s.toList.length = 0 := by omega
  rw [h0, List.drop_zero]
  exact dropWhile_append_ne_nil _ _ h

/-- Counterexample to C6: the admin CRUD base URL of
src/test-body-content-types.py has path `/api/admin/rules`, which does not
begin with `/poormansRateLimit/api/admin/rules`. -/
theorem C6_counterexample :
    urlPath TestBodyCT.API_URL = "/api/admin/rules".toList ∧
    ¬ adminRulesPath <+: urlPath TestBodyCT.API_URL := by
  constructor
  · decide
  · decide

/-- C6 (amended): every admin rule CRUD URL of src/test-gateway.py and
src/test-jwt-rate-limit.py (list/create base, id-addressed, queue PATCH)
has a path beginning with `/poormansRateLimit/api/admin/rules`, but
src/test-body-content-types.py targets `/api/admin/rules`, without the
`/poormansRateLimit` segment. -/
theorem C6_admin_url_paths (rid : String) :
    adminRulesPath <+: urlPath TestGateway.RULES_ADMIN_URL ∧
    adminRulesPath <+: urlPath (TestGateway.ruleUrl rid) ∧
    adminRulesPath <+: urlPath (TestGateway.queueUrl rid) ∧
    adminRulesPath <+: urlPath TestJwt.ADMIN_API_URL ∧
    adminRulesPath <+: urlPath (TestJwt.deleteUrl rid) ∧
    urlPath TestBodyCT.API_URL = "/api/admin/rules".toList ∧
    "/api/admin/rules".toList <+: urlPath (TestBodyCT.deleteUrl rid) ∧
    ¬ adminRulesPath <+: urlPath TestBodyCT.API_URL := by
  have hg : urlPath (TestGateway.RULES_ADMIN_URL ++ "/" ++ rid) =
      urlPath (TestGateway.RULES_ADMIN_URL ++ "/") ++ rid.toList :=
    urlPath_append (TestGateway.RULES_ADMIN_URL ++ "/") rid (by decide) (by decide)
  have hq : urlPath (TestGateway.RULES_ADMIN_URL ++ "/" ++ rid ++ "/queue") =
      urlPath (TestGateway.RULES_ADMIN_URL ++ "/") ++ (rid ++ "/queue").toList := by
    rw [strAppend_assoc (TestGateway.RULES_ADMIN_URL ++ "/") rid "/queue"]
    exact urlPath_append (TestGateway.RULES_ADMIN_URL ++ "/") (rid ++ "/queue")
      (by decide) (by decide)
  have hj : urlPath (TestJwt.ADMIN_API_URL ++ "/" ++ rid) =
      urlPath (TestJwt.ADMIN_API_URL ++ "/") ++ rid.toList :=
    urlPath_append (TestJwt.ADMIN_API_URL ++ "/") rid (by decide) (by decide)
  have hb : urlPath (TestBodyCT.API_URL ++ "/" ++ rid) =
      urlPath (TestBodyCT.API_URL ++ "/") ++ rid.toList :=
    urlPath_append (TestBodyCT.API_URL ++ "/") rid (by decide) (by decide)
  refine ⟨by decide, ?_, ?_, by decide, ?_, by decide, ?_, by decide⟩
  · rw [TestGateway.ruleUrl, hg]
    exact List.IsPrefix.trans (by decide) (List.prefix_append _ _)
  · rw [TestGateway.queueUrl, hq]
    exact List.IsPrefix.trans (by decide) (List.prefix_append _ _)
  · rw [TestJwt.deleteUrl, hj]
    exact List.IsPrefix.trans (by decide) (List.prefix_append _ _)
  · rw [TestBodyCT.deleteUrl, hb]
    exact List.IsPrefix.trans (by decide) (List.prefix_append _ _)

/-! ## Form token issuance (modelled from the spec) -/

/-- Lowercase hexadecimal digit of a 4-bit value. -/
def hexDigit : Nat → Char
  | 0 => '0' | 1 => '1' | 2 => '2' | 3 => '3' | 4 => '4' | 5 => '5' | 6 => '6' | 7 => '7'
  | 8 => '8' | 9 => '9' | 10 => 'a' | 11 => 'b' | 12 => 'c' | 13 => 'd' | 14 => 'e'
  | 15 => 'f' | _ => '0'

/-- Two hex digits of a byte. -/
def byteHex (b : Nat) : List Char := [hexDigit (b / 16), hexDigit (b % 16)]

/-- Hex rendering of a byte string. -/
def bytesHex : List Nat → List Char
  | [] => []
  | b :: r => byteHex b ++ bytesHex r

/-- Modelled from the spec: the canonical 8-4-4-4-12 UUID rendering of 16
random bytes — the shape of the issued form token (§3 FormToken: UUID v4,
36 chars, 4 hyphens); the issuing gateway is not part of this
repository. -/
def uuidString (bs : List Nat) : List Char :=
  bytesHex (bs.take 4) ++ '-' :: (bytesHex ((bs.drop 4).take 2) ++ '-' ::
    (bytesHex ((bs.drop 6).take 2) ++ '-' :: (bytesHex ((bs.drop 8).take 2) ++ '-' ::
      bytesHex (bs.drop 10))))

/-- Modelled from the spec: the JSON body answered by
`GET /api/tokens/form` — `{token, loadTime, expiresIn, honeypotField}`
(§4.5, §6). -/
structure FormTokenResponse where
  token : List Char
  loadTime : Nat
  expiresIn : Nat
  honeypotField : String

/-- Modelled from the spec: issuing a form token at time `nowMs` from 16
random bytes; `expiresIn` is the fixed 600 s validity. -/
def issueFormToken (randomBytes : List Nat) (nowMs : Nat) (honeypotName : String) :
    FormTokenResponse :=
  { token := uuidString randomBytes
    loadTime := nowMs
    expiresIn := 600
    honeypotField := honeypotName }

theorem hexDigit_ne_hyphen (n : Nat) : hexDigit n ≠ '-' := by
  unfold hexDigit
  split <;> decide

theorem bytesHex_length (bs : List Nat) : (bytesHex bs).length = 2 * bs.length := by
  induction bs with
  | nil => rfl
  | cons b r ih =>
    simp [bytesHex, byteHex, ih]
    omega

theorem bytesHex_count_hyphen (bs : List Nat) : (bytesHex bs).count '-' = 0 := by
  induction bs with
  | nil => rfl
  | cons b r ih =>
    simp [bytesHex, byteHex, List.count_append, List.count_cons, ih]
    exact ⟨hexDigit_ne_hyphen _, hexDigit_ne_hyphen _⟩

/-- C8: the modelled `GET /api/tokens/form` response carries the four
fields; the token rendered from 16 bytes is a 36-character string with
exactly 4 hyphens (UUID format), `loadTime` is the (numeric) issuance
time, and `expiresIn` equals 600. -/
theorem C8_form_token_shape (bs : List Nat) (nowMs : Nat) (name : String)
    (hlen : bs.length = 16) :
    (issueFormToken bs nowMs name).token.length = 36 ∧
    (issueFormToken bs nowMs name).token.count '-' = 4 ∧
    (issueFormToken bs nowMs name).loadTime = nowMs ∧
    (issueFormToken bs nowMs name).expiresIn = 600 ∧
    (issueFormToken bs nowMs name).honeypotField = name := by
  refine ⟨?_, ?_, rfl, rfl, rfl⟩
  · simp [issueFormToken, uuidString, bytesHex_length, hlen]
  · simp [issueFormToken, uuidString, List.count_append, List.count_cons,
      bytesHex_count_hyphen]

/-- Witness for C8: a concrete 16-byte input. -/
theorem C8_witness :
    ((List.replicate 16 0 : List Nat).length = 16) ∧
    ((issueFormToken (List.replicate 16 0) 1234 "website").token.length = 36 ∧
     (issueFormToken (List.replicate 16 0) 1234 "website").token.count '-' = 4 ∧
     (issueFormToken (List.replicate 16 0) 1234 "website").loadTime = 1234 ∧
     (issueFormToken (List.replicate 16 0) 1234 "website").expiresIn = 600 ∧
     (issueFormToken (List.replicate 16 0) 1234 "website").honeypotField = "website") :=
  ⟨by decide, C8_form_token_shape (List.replicate 16 0) 1234 "website" (by decide)⟩

/-! ## Base64url and the unsecured JWT builder (src/test-jwt-rate-limit.py) -/

/-- The urlsafe base64 alphabet (`base64.urlsafe_b64encode`). -/
def b64Chars : List Char :=
  ['A', 'B', 'C', 'D', 'E', 'F', 'G', 'H', 'I', 'J', 'K', 'L', 'M',
   'N', 'O', 'P', 'Q', 'R', 'S', 'T', 'U', 'V', 'W', 'X', 'Y', 'Z',
   'a', 'b', 'c', 'd', 'e', 'f', 'g', 'h', 'i', 'j', 'k', 'l', 'm',
   'n', 'o', 'p', 'q', 'r', 's', 't', 'u', 'v', 'w', 'x', 'y', 'z',
   '0', '1', '2', '3', '4', '5', '6', '7', '8', '9', '-', '_']

/-- Element of a character list at an index, defaulting to `A`. -/
def nthD : List Char → Nat → Char
  | [], _ => 'A'
  | c :: _, 0 => c
  | _ :: r, n + 1 => nthD r n

/-- The alphabet character of a 6-bit value. -/
def sixBitChar (n : Nat) : Char := nthD b64Chars n

/-- Index of a character in a list (length if absent). -/
def idxFrom : List Char → Char → Nat
  | [], _ => 0
  | x :: r, c => if x = c then 0 else idxFrom r c + 1

/-- The 6-bit value of an alphabet character. -/
def charSix (c : Char) : Nat := idxFrom b64Chars c

/-- Base64 encoding with padding, 3 input bytes per 4 output characters
(`base64.urlsafe_b64encode`). -/
def encodePadded : List Nat → List Char
  | [] => []
  | [a] => [sixBitChar (a / 4), sixBitChar (a % 4 * 16), '=', '=']
  | [a, b] =>
    [sixBitChar (a / 4), sixBitChar (a % 4 * 16 + b / 16), sixBitChar (b % 16 * 4), '=']
  | a :: b :: c :: rest =>
    sixBitChar (a / 4) :: sixBitChar (a % 4 * 16 + b / 16) ::
      sixBitChar (b % 16 * 4 + c / 64) :: sixBitChar (c % 64) :: encodePadded rest

/-- Python's `.rstrip("=")`: remove trailing padding characters. -/
def rstripEq (l : List Char) : List Char :=
  (l.reverse.dropWhile (fun c => c == '=')).reverse

/-- Restore stripped padding: append `=` up to a multiple of four. -/
def padTo4 (l : List Char) : List Char :=
  l ++ List.replicate ((4 - l.length % 4) % 4) '='

/-- Base64 decoding of a correctly padded string
(`base64.urlsafe_b64decode`): each 4-character group yields 3 bytes, or
fewer at the final padded group. -/
def decodeB64 : List Char → List Nat
  | c0 :: c1 :: c2 :: c3 :: rest =>
    if c2 = '=' then [charSix c0 * 4 + charSix c1 / 16]
    else if c3 = '=' then
      [charSix c0 * 4 + charSix c1 / 16, charSix c1 % 16 * 16 + charSix c2 / 4]
    else
      (charSix c0 * 4 + charSix c1 / 16) :: (charSix c1 % 16 * 16 + charSix c2 / 4) ::
        (charSix c2 % 4 * 64 + charSix c3) :: decodeB64 rest
  | _ => []

/-- Bytes of `json.dumps({"alg": "none", "typ": "JWT"})`, the fixed header
of `create_unsecured_jwt` in src/test-jwt-rate-limit.py. -/
def headerJsonBytes : List Nat :=
  ("\x7b\"alg\": \"none\", \"typ\": \"JWT\"\x7d".toList).map Char.toNat

/-- The header segment of every token built by `create_unsecured_jwt`. -/
def headerSegment : List Char := rstripEq (encodePadded headerJsonBytes)

/-- The payload segment: base64url of the payload's JSON encoding with
padding stripped. -/
def payloadSegment (payloadJson : List Nat) : List Char :=
  rstripEq (encodePadded payloadJson)

/-- `create_unsecured_jwt` of src/test-jwt-rate-limit.py: the payload is
represented by the bytes of its JSON encoding (`json.dumps(payload)`);
the function returns `f"{header_b64}.{payload_b64}."`. -/
def create_unsecured_jwt (payloadJson : List Nat) : List Char :=
  headerSegment ++ '.' :: (payloadSegment payloadJson ++ ['.'])

/-- Splitting a character list at dots, with Python `str.split(".")`
semantics (never returns an empty list of segments). -/
def splitOnDot : List Char → List (List Char)
  | [] => [[]]
  | c :: r =>
    if c = '.' then [] :: splitOnDot r
    else
      match splitOnDot r with
      | [] => [[c]]
      | s :: rest => (c :: s) :: rest

theorem nthD_mem_or (l : List Char) (n : Nat) : nthD l n ∈ l ∨ nthD l n = 'A' := by
  induction l generalizing n with
  | nil => right; rfl
  | cons c r ih =>
    cases n with
    | zero => left; exact List.mem_cons_self _ _
    | succ m =>
      rcases ih m with h | h
      · left; exact List.mem_cons_of_mem _ h
      · right; exact h

theorem sixBitChar_ne_eq (n : Nat) : sixBitChar n ≠ '=' := by
  rcases nthD_mem_or b64Chars n with h | h
  · intro hc
    rw [sixBitChar] at hc
    rw [hc] at h
    revert h
    decide
  · rw [sixBitChar, h]
    decide

theorem sixBitChar_ne_dot (n : Nat) : sixBitChar n ≠ '.' := by
  rcases nthD_mem_or b64Chars n with h | h
  · intro hc
    rw [sixBitChar] at hc
    rw [hc] at h
    revert h
    decide
  · rw [sixBitChar, h]
    decide

theorem charSix_sixBitChar : ∀ n, n < 64 → charSix (sixBitChar n) = n := by decide

/-- Decoding inverts padded encoding on byte strings. -/
theorem decode_encodePadded : ∀ (bs : List Nat), (∀ b ∈ bs, b < 256) →
    decodeB64 (encodePadded bs) = bs := by
  intro bs
  induction bs using encodePadded.induct with
  | case1 =>
    intro _
    rfl
  | case2 a =>
    intro hb
    have ha : a < 256 := hb a (by simp)
    have h0 : charSix (sixBitChar (a / 4)) = a / 4 := charSix_sixBitChar _ (by omega)
    have h1 : charSix (sixBitChar (a % 4 * 16)) = a % 4 * 16 := charSix_sixBitChar _ (by omega)
    simp only [encodePadded, decodeB64]
    rw [if_pos trivial, h0, h1]
    simp only [List.cons.injEq, and_true]
    omega
  | case3 a b =>
    intro hb
    have ha : a < 256 := hb a (by simp)
    have hbb : b < 256 := hb b (by simp)
    have h0 : charSix (sixBitChar (a / 4)) = a / 4 := charSix_sixBitChar _ (by omega)
    have h1 : charSix (sixBitChar (a % 4 * 16 + b / 16)) = a % 4 * 16 + b / 16 :=
      charSix_sixBitChar _ (by omega)
    have h2 : charSix (sixBitChar (b % 16 * 4)) = b % 16 * 4 := charSix_sixBitChar _ (by omega)
    simp only [encodePadded, decodeB64]
    rw [if_neg (sixBitChar_ne_eq (b % 16 * 4)), if_pos trivial, h0, h1, h2]
    simp only [List.cons.injEq, and_true]
    constructor <;> omega
  | case4 a b c rest ih =>
    intro hb
    have ha : a < 256 := hb a (by simp)
    have hbb : b < 256 := hb b (by simp)
    have hcc : c < 256 := hb c (by simp)
    have hrest : ∀ x ∈ rest, x < 256 := fun x hx => hb x (by simp [hx])
    have h0 : charSix (sixBitChar (a / 4)) = a / 4 := charSix_sixBitChar _ (by omega)
    have h1 : charSix (sixBitChar (a % 4 * 16 + b / 16)) = a % 4 * 16 + b / 16 :=
      charSix_sixBitChar _ (by omega)
    have h2 : charSix (sixBitChar (b % 16 * 4 + c / 64)) = b % 16 * 4 + c / 64 :=
      charSix_sixBitChar _ (by omega)
    have h3 : charSix (sixBitChar (c % 64)) = c % 64 := charSix_sixBitChar _ (by omega)
    simp only [encodePadded, decodeB64]
    rw [if_neg (sixBitChar_ne_eq (b % 16 * 4 + c / 64)), if_neg (sixBitChar_ne_eq (c % 64)),
      h0, h1, h2, h3, ih hrest]
    simp only [List.cons.injEq, and_true]
    refine ⟨by omega, by omega, by omega⟩

/-- The non-padding prefix of the padded encoding. -/
def coreB64 : List Nat → List Char
  | [] => []
  | [a] => [sixBitChar (a / 4), sixBitChar (a % 4 * 16)]
  | [a, b] => [sixBitChar (a / 4), sixBitChar (a % 4 * 16 + b / 16), sixBitChar (b % 16 * 4)]
  | a :: b :: c :: rest =>
    sixBitChar (a / 4) :: sixBitChar (a % 4 * 16 + b / 16) ::
      sixBitChar (b % 16 * 4 + c / 64) :: sixBitChar (c % 64) :: coreB64 rest

/-- Number of padding characters for a byte count. -/
def padLenOf (n : Nat) : Nat :=
  match n % 3 with
  | 1 => 2
  | 2 => 1
  | _ => 0

theorem padLenOf_add3 (n : Nat) : padLenOf (n + 3) = padLenOf n := by
  unfold padLenOf
  have h : (n + 3) % 3 = n % 3 := by omega
  rw [h]

theorem encodePadded_eq_core (bs : List Nat) :
    encodePadded bs = coreB64 bs ++ List.replicate (padLenOf bs.length) '=' := by
  induction bs using coreB64.induct with
  | case1 => rfl
  | case2 a => rfl
  | case3 a b => rfl
  | case4 a b c rest ih =>
    simp only [encodePadded, coreB64, List.length_cons, ih]
    rw [show rest.length + 1 + 1 + 1 = rest.length + 3 from by omega, padLenOf_add3]
    simp

theorem coreB64_ne_eq (bs : List Nat) : ∀ x ∈ coreB64 bs, x ≠ '=' := by
  induction bs using coreB64.induct with
  | case1 => simp [coreB64]
  | case2 a =>
    intro x hx
    simp only [coreB64, List.mem_cons, List.not_mem_nil, or_false] at hx
    rcases hx with rfl | rfl <;> exact sixBitChar_ne_eq _
  | case3 a b =>
    intro x hx
    simp only [coreB64, List.mem_cons, List.not_mem_nil, or_false] at hx
    rcases hx with rfl | rfl | rfl <;> exact sixBitChar_ne_eq _
  | case4 a b c rest ih =>
    intro x hx
    simp only [coreB64, List.mem_cons] at hx
    rcases hx with rfl | rfl | rfl | rfl | hx
    · exact sixBitChar_ne_eq _
    · exact sixBitChar_ne_eq _
    · exact sixBitChar_ne_eq _
    · exact sixBitChar_ne_eq _
    · exact ih x hx

theorem encodePadded_ne_dot (bs : List Nat) : ∀ x ∈ encodePadded bs, x ≠ '.' := by
  induction bs using encodePadded.induct with
  | case1 => simp [encodePadded]
  | case2 a =>
    intro x hx
    simp only [encodePadded, List.mem_cons, List.not_mem_nil, or_false] at hx
    rcases hx with rfl | rfl | rfl | rfl
    · exact sixBitChar_ne_dot _
    · exact sixBitChar_ne_dot _
    · decide
    · decide
  | case3 a b =>
    intro x hx
    simp only [encodePadded, List.mem_cons, List.not_mem_nil, or_false] at hx
    rcases hx with rfl | rfl | rfl | rfl
    · exact sixBitChar_ne_dot _
    · exact sixBitChar_ne_dot _
    · exact sixBitChar_ne_dot _
    · decide
  | case4 a b c rest ih =>
    intro x hx
    simp only [encodePadded, List.mem_cons] at hx
    rcases hx with rfl | rfl | rfl | rfl | hx
    · exact sixBitChar_ne_dot _
    · exact sixBitChar_ne_dot _
    · exact sixBitChar_ne_dot _
    · exact sixBitChar_ne_dot _
    · exact ih x hx

theorem dropWhile_all_false {α : Type} {p : α → Bool} (l : List α)
    (h : ∀ x ∈ l, p x = false) : l.dropWhile p = l := by
  cases l with
  | nil => rfl
  | cons x r =>
    have hx := h x (by simp)
    simp [List.dropWhile, hx]

theorem dropWhile_replicate_true {α : Type} {p : α → Bool} (a : α) (ha : p a = true)
    (k : Nat) (m : List α) :
    (List.replicate k a ++ m).dropWhile p = m.dropWhile p := by
  induction k with
  | zero => simp
  | succ n ih => simp [List.replicate_succ, List.dropWhile, ha, ih]

theorem rstripEq_append_replicate (l : List Char) (k : Nat) (h : ∀ x ∈ l, x ≠ '=') :
    rstripEq (l ++ List.replicate k '=') = l := by
  unfold rstripEq
  rw [List.reverse_append, List.reverse_replicate,
    dropWhile_replicate_true '=' (by decide) k l.reverse,
    dropWhile_all_false l.reverse
      (fun x hx => by
        have hxl : x ∈ l := List.mem_reverse.1 hx
        simpa using h x hxl),
    List.reverse_reverse]

theorem padCount (bs : List Nat) :
    (4 - (coreB64 bs).length % 4) % 4 = padLenOf bs.length := by
  induction bs using coreB64.induct with
  | case1 => rfl
  | case2 a => rfl
  | case3 a b => rfl
  | case4 a b c rest ih =>
    simp only [coreB64, List.length_cons]
    rw [show rest.length + 1 + 1 + 1 = rest.length + 3 from by omega, padLenOf_add3, ← ih]
    omega

theorem padTo4_rstrip_encode (bs : List Nat) :
    padTo4 (rstripEq (encodePadded bs)) = encodePadded bs := by
  rw [encodePadded_eq_core, rstripEq_append_replicate _ _ (coreB64_ne_eq bs)]
  unfold padTo4
  rw [padCount]

theorem mem_of_mem_dropWhile {α : Type} {p : α → Bool} :
    ∀ {l : List α} {x : α}, x ∈ l.dropWhile p → x ∈ l := by
  intro l
  induction l with
  | nil => intro x hx; simp at hx
  | cons y r ih =>
    intro x hx
    by_cases hy : p y
    · simp only [List.dropWhile, hy] at hx
      exact List.mem_cons_of_mem _ (ih hx)
    · rw [Bool.not_eq_true] at hy
      simp only [List.dropWhile, hy] at hx
      exact hx

theorem mem_rstripEq {l : List Char} {x : Char} (hx : x ∈ rstripEq l) : x ∈ l := by
  unfold rstripEq at hx
  rw [List.mem_reverse] at hx
  have hm := mem_of_mem_dropWhile hx
  rwa [List.mem_reverse] at hm

theorem splitOnDot_append (a : List Char) (r : List Char) (ha : ∀ x ∈ a, x ≠ '.') :
    splitOnDot (a ++ '.' :: r) = a :: splitOnDot r := by
  induction a with
  | nil => simp [splitOnDot]
  | cons x a ih =>
    have hx : x ≠ '.' := ha x (by simp)
    have ha' : ∀ y ∈ a, y ≠ '.' := fun y hy => ha y (by simp [hy])
    have hrec := ih ha'
    simp only [List.cons_append, splitOnDot, if_neg hx, List.append_eq, hrec]

/-- C7: for every payload (represented by the bytes of its JSON encoding,
each < 256), `create_unsecured_jwt` yields exactly three dot-separated
segments whose third is empty, and base64url-decoding the second segment
after restoring the stripped padding recovers exactly the JSON encoding of
the payload. -/
theorem C7_jwt_roundtrip (payloadJson : List Nat) (hb : ∀ b ∈ payloadJson, b < 256) :
    splitOnDot (create_unsecured_jwt payloadJson) =
      [headerSegment, payloadSegment payloadJson, []] ∧
    decodeB64 (padTo4 (payloadSegment payloadJson)) = payloadJson := by
  constructor
  · unfold create_unsecured_jwt
    rw [splitOnDot_append headerSegment _
        (fun x hx => encodePadded_ne_dot headerJsonBytes x (mem_rstripEq hx)),
      splitOnDot_append (payloadSegment payloadJson) []
        (fun x hx => encodePadded_ne_dot payloadJson x (mem_rstripEq hx))]
    rfl
  · unfold payloadSegment
    rw [padTo4_rstrip_encode, decode_encodePadded payloadJson hb]

/-- Witness for C7: the payload whose JSON encoding is the two-byte
document `42`. -/
theorem C7_witness :
    (∀ b ∈ [52, 50], b < 256) ∧
    (splitOnDot (create_unsecured_jwt [52, 50]) =
      [headerSegment, payloadSegment [52, 50], []] ∧
    decodeB64 (padTo4 (payloadSegment [52, 50])) = [52, 50]) :=
  ⟨by decide, C7_jwt_roundtrip [52, 50] (by decide)⟩
